import Mathlib

/-!
Shallow embedding of the Comfy Masking API gateway (`app.py`) and proofs
about its job-orchestration pipeline: endpoint-URL selection and
normalization, asset upload with retry, job-graph binding, status polling
under a deadline, and artifact fetching.

Python dictionaries are modelled as association lists (insertion order is
preserved, first occurrence of a key wins), machine strings as `String`,
wall-clock seconds as `ℚ`, and the remote engine's responses as explicit
oracle functions from attempt/iteration number to response.
-/

/-! ### Python string primitives -/

/-- Characters removed by Python's `str.strip()` with no argument. -/
def isPySpace (c : Char) : Bool :=
  c == ' ' || c == '\t' || c == '\n' || c == '\r' || c == '\x0b' || c == '\x0c'

/-- Python `str.strip()`: remove leading and trailing whitespace. -/
def pyStrip (s : String) : String :=
  String.mk (((s.data.dropWhile isPySpace).reverse.dropWhile isPySpace).reverse)

/-- Python `str.rstrip('/')`: remove every trailing `'/'`. -/
def rstripSlash (s : String) : String :=
  String.mk ((s.data.reverse.dropWhile (fun c => c == '/')).reverse)

/-- Whether the last character of a string is the path separator `'/'`. -/
def lastIsSlash (s : String) : Bool :=
  match s.data.reverse with
  | [] => false
  | c :: _ => c == '/'

/-- Normalization applied by `_pick_comfy_url`: `url.rstrip('/') + '/'`. -/
def normalizeUrl (s : String) : String :=
  rstripSlash s ++ "/"

/-- Route used by `_upload_to_comfy`: `f"{base_url.rstrip('/')}/upload/image"`. -/
def uploadRoute (base : String) : String :=
  rstripSlash base ++ "/upload/image"

/-- Route used by `_queue_prompt`: `f"{base_url.rstrip('/')}/prompt"`. -/
def promptRoute (base : String) : String :=
  rstripSlash base ++ "/prompt"

/-- Route used by `_poll_history`: `f"{base_url.rstrip('/')}/history/{prompt_id}"`. -/
def historyRoute (base pid : String) : String :=
  rstripSlash base ++ "/history/" ++ pid

/-- Route used by `_fetch_first_image`: `f"{base_url.rstrip('/')}/view"`. -/
def viewRoute (base : String) : String :=
  rstripSlash base ++ "/view"

/-- Digit run of a Python integer literal after the first digit: digits,
with single underscores allowed between digits. -/
def pyDigitsRest : List Char → Option (List Char)
  | [] => some []
  | c :: rest =>
    if c.isDigit then
      (pyDigitsRest rest).map (fun l => c :: l)
    else if c == '_' then
      match rest with
      | [] => none
      | d :: rest2 =>
        if d.isDigit then (pyDigitsRest rest2).map (fun l => d :: l) else none
    else none

/-- Numeric value of a list of decimal digit characters. -/
def digitsToNat (l : List Char) : ℕ :=
  l.foldl (fun acc c => 10 * acc + (c.toNat - 48)) 0

/-- Unsigned part of Python `int(str)`: a non-empty digit run. -/
def pyUnsigned (l : List Char) : Option ℕ :=
  match l with
  | [] => none
  | c :: _ =>
    if c.isDigit then (pyDigitsRest l).map digitsToNat else none

/-- Python `int(str)` on an already-stripped character list: optional sign
followed by digits; `none` models a raised `ValueError`. -/
def pyIntCore (l : List Char) : Option ℤ :=
  match l with
  | '+' :: rest => (pyUnsigned rest).map (fun n => (n : ℤ))
  | '-' :: rest => (pyUnsigned rest).map (fun n => -(n : ℤ))
  | _ => (pyUnsigned l).map (fun n => (n : ℤ))

/-- Python `int(str)`: strips whitespace, then parses an optionally signed
decimal literal; `none` models a raised `ValueError`. -/
def pyInt (s : String) : Option ℤ :=
  pyIntCore (pyStrip s).data

/-! ### Endpoint URL selection (`_pick_comfy_url`) -/

/-- Truthiness of `url and url.strip()` in `_pick_comfy_url`: the candidate
is accepted when it is supplied, non-empty, and not all whitespace. -/
def urlTruthy : Option String → Bool
  | none => false
  | some s => !(s == "") && !(pyStrip s == "")

/-- The `for url in [form_url, header_url, query_url]` loop of
`_pick_comfy_url`: first accepted candidate, normalized; `none` models the
raised HTTP 400 configuration error. -/
def pickLoop : List (Option String) → Option String
  | [] => none
  | none :: rest => pickLoop rest
  | some s :: rest =>
    if urlTruthy (some s) then some (normalizeUrl s) else pickLoop rest

/-- `_pick_comfy_url(form_url, header_url, query_url)`. -/
def pickComfyUrl (formUrl headerUrl queryUrl : Option String) : Option String :=
  pickLoop [formUrl, headerUrl, queryUrl]

/-! ### Asset upload with retry (`_upload_to_comfy`) -/

/-- Outcome of one `requests.post(.../upload/image)` attempt:
`ok` is a success status, `err` is a transport error or the exception
raised by `raise_for_status` on a non-success status. -/
inductive AttemptResult where
  | ok
  | err (e : String)
deriving DecidableEq

/-- Stamped remote filename: `f"{int(time.time()*1000)}_{original_name}"`. -/
def stampedName (ts : ℕ) (orig : String) : String :=
  toString ts ++ "_" ++ orig

/-- Body of the retry loop of `_upload_to_comfy`, over the attempt oracle.
Arguments: current attempt index, remaining attempts (`range(MAX_RETRIES)`),
current `last_err`. Returns the result (`Except.error` models the final
HTTP 502 carrying `last_err`), the number of attempts made, and the list of
`time.sleep` durations performed (the code sleeps a fixed 2 seconds after
every failed attempt). -/
def uploadGo (attempts : ℕ → AttemptResult) (stamped : String) :
    ℕ → ℕ → Option String → Except (Option String) String × ℕ × List ℕ
  | _, 0, lastErr => (Except.error lastErr, 0, [])
  | k, r + 1, _ =>
    match attempts k with
    | AttemptResult.ok => (Except.ok stamped, 1, [])
    | AttemptResult.err e =>
      let p := uploadGo attempts stamped (k + 1) r (some e)
      (p.1, p.2.1 + 1, 2 :: p.2.2)

/-- `_upload_to_comfy`: retry loop entered with attempt 0, `MAX_RETRIES`
remaining attempts and `last_err = None`. -/
def uploadToComfy (attempts : ℕ → AttemptResult) (stamped : String)
    (retries : ℕ) : Except (Option String) String × ℕ × List ℕ :=
  uploadGo attempts stamped 0 retries none

/-! ### Status documents and the poller (`_poll_history`) -/

/-- One element of a node's `images` list in a status document:
`{'filename', 'subfolder', 'type'}`, each field possibly absent. -/
structure ArtifactDescriptor where
  filename : Option String
  subfolder : Option String
  typ : Option String
deriving DecidableEq

/-- One value of the `outputs` mapping: a dictionary that may carry an
`images` key and some number of other keys (`extraKeys` only feeds Python
dict truthiness). -/
structure NodeOutput where
  images : Option (List ArtifactDescriptor)
  extraKeys : ℕ
deriving DecidableEq

/-- Python truthiness of a node-output dictionary: empty iff it has no keys. -/
def dictIsEmpty (n : NodeOutput) : Bool :=
  n.images.isNone && n.extraKeys == 0

/-- Truthiness of `v.get("images")`: present and non-empty. -/
def imagesTruthy (n : NodeOutput) : Bool :=
  match n.images with
  | some (_ :: _) => true
  | _ => false

/-- One entry of the history document: `hist[prompt_id]`, whose
`outputs` key may be absent (`.get("outputs", {})`). -/
structure HistEntry where
  outputs : Option (List (String × NodeOutput))
deriving DecidableEq

/-- The JSON body of a 200 response from `history/{prompt_id}`. -/
abbrev Hist := List (String × HistEntry)

/-- One response of the `history/{prompt_id}` endpoint: a non-200 status,
or a 200 together with its JSON body. -/
inductive PollResponse where
  | failure (status : ℕ)
  | success (hist : Hist)
deriving DecidableEq

/-- `outputs.get(nodeID)` on the outputs mapping. -/
def lookupNode : List (String × NodeOutput) → String → Option NodeOutput
  | [], _ => none
  | (k, v) :: rest, key => if k == key then some v else lookupNode rest key

/-- Truthiness of `not node` on the looked-up value. -/
def nodeFalsy : Option NodeOutput → Bool
  | none => true
  | some n => dictIsEmpty n

/-- The fallback loop `for _, v in outputs.items(): if v.get("images"): ...`:
first entry, in mapping order, with a non-empty `images` list. -/
def firstWithImages : List (String × NodeOutput) → Option NodeOutput
  | [] => none
  | (_, v) :: rest => if imagesTruthy v then some v else firstWithImages rest

/-- Output-node selection shared by `_poll_history` and
`_fetch_first_image`: take the entry keyed by the configured output node;
if that is falsy (absent or an empty dictionary), fall back to the first
entry with a non-empty `images` list, keeping the falsy value when no such
entry exists. -/
def pollSelect (outID : String) (outs : List (String × NodeOutput)) :
    Option NodeOutput :=
  let node := lookupNode outs outID
  if nodeFalsy node then
    match firstWithImages outs with
    | some v => some v
    | none => node
  else node

/-- The readiness test `if node and node.get("images")`. -/
def pollReady (outID : String) (outs : List (String × NodeOutput)) : Bool :=
  match pollSelect outID outs with
  | none => false
  | some n => !(dictIsEmpty n) && imagesTruthy n

/-- `hist.get(prompt_id)` on the history document (also covers the
`hist and prompt_id in hist` guard: an empty dictionary has no keys). -/
def histLookup : Hist → String → Option HistEntry
  | [], _ => none
  | (k, v) :: rest, key => if k == key then some v else histLookup rest key

/-- One poll iteration: returns the full history document when the response
is a 200 whose body contains the job and a ready node, `none` otherwise
(non-200 responses are treated as not ready, never as fatal). -/
def pollCheck (outID pid : String) (resp : PollResponse) : Option Hist :=
  match resp with
  | PollResponse.failure _ => none
  | PollResponse.success hist =>
    match histLookup hist pid with
    | none => none
    | some entry =>
      if pollReady outID (entry.outputs.getD []) then some hist else none

/-- Result of the poll loop. `fuelOut` is a model artifact: the explicit
iteration budget of `pollLoopFuel` ran out while the wall-clock deadline
had not yet passed; the termination theorem shows the canonical budget of
`pollHistoryRun` never reaches it when the interval is positive. -/
inductive PollOutcome where
  | ready (hist : Hist)
  | timedOut
  | fuelOut
deriving DecidableEq

/-- The `while time.time() < deadline` loop of `_poll_history`, with time
discretized: iteration `k` runs at `k * interval` seconds after entry (the
deadline `timeout` is fixed once at entry), and every iteration that does
not return sleeps exactly one interval — also on non-200 responses.
Returns the outcome and the number of iterations executed (each iteration
is one GET of `history/{prompt_id}`). -/
def pollLoopFuel (outID pid : String) (responses : ℕ → PollResponse)
    (interval timeout : ℚ) : ℕ → ℕ → PollOutcome × ℕ
  | 0, k =>
    if (k : ℚ) * interval < timeout then (PollOutcome.fuelOut, 0)
    else (PollOutcome.timedOut, 0)
  | fuel + 1, k =>
    if (k : ℚ) * interval < timeout then
      match pollCheck outID pid (responses k) with
      | some hist => (PollOutcome.ready hist, 1)
      | none =>
        let p := pollLoopFuel outID pid responses interval timeout fuel (k + 1)
        (p.1, p.2 + 1)
    else (PollOutcome.timedOut, 0)

/-- Number of loop iterations the deadline admits: the smallest `n` with
`n * interval ≥ timeout`. -/
def pollIterBound (interval timeout : ℚ) : ℕ :=
  (Int.ceil (timeout / interval)).toNat

/-- `_poll_history`: the poll loop entered at time zero with the canonical
iteration budget. -/
def pollHistoryRun (outID pid : String) (responses : ℕ → PollResponse)
    (interval timeout : ℚ) : PollOutcome × ℕ :=
  pollLoopFuel outID pid responses interval timeout
    (pollIterBound interval timeout) 0

/-! ### Job graph and the binder (`mask`, lines 142-151) -/

/-- A JSON value of the workflow document. -/
inductive Json where
  | null
  | bool (b : Bool)
  | num (n : ℤ)
  | str (s : String)
  | arr (elems : List Json)
  | obj (fields : List (String × Json))

/-- A node definition: the dictionary stored under a node id. -/
abbrev NodeDef := List (String × Json)

/-- A top-level key of the workflow dictionary: JSON templates use string
keys, but the code also probes `int(INPUT_NODE_ID)` keys. -/
inductive GKey where
  | str (s : String)
  | int (n : ℤ)
deriving DecidableEq

/-- The workflow graph: a dictionary from node key to node definition. -/
abbrev Graph := List (GKey × NodeDef)

/-- Dictionary `get` on a node definition (first occurrence of the key). -/
def getField : NodeDef → String → Option Json
  | [], _ => none
  | (k, v) :: rest, key => if k == key then some v else getField rest key

/-- Dictionary assignment `d[key] = v`: replace the value of an existing
key in place, otherwise append the new key at the end. -/
def setField : NodeDef → String → Json → NodeDef
  | [], key, v => [(key, v)]
  | (k, v0) :: rest, key, v =>
    if k == key then (k, v) :: rest else (k, v0) :: setField rest key v

/-- Dictionary `get` on the graph. -/
def lookupKey : Graph → GKey → Option NodeDef
  | [], _ => none
  | (k, v) :: rest, key => if k = key then some v else lookupKey rest key

/-- `graph.get(INPUT_NODE_ID)` with the configured id as a string key. -/
def strLookup (g : Graph) (id : String) : Option NodeDef :=
  lookupKey g (GKey.str id)

/-- `graph.get(int(INPUT_NODE_ID))` with the parsed id as an integer key. -/
def intLookup (g : Graph) (n : ℤ) : Option NodeDef :=
  lookupKey g (GKey.int n)

/-- Graph assignment: replace the definition stored under a key in place
(append when absent; the binder only ever hits present keys). -/
def setNode : Graph → GKey → NodeDef → Graph
  | [], key, nd => [(key, nd)]
  | (k, v0) :: rest, key, nd =>
    if k = key then (k, nd) :: rest else (k, v0) :: setNode rest key nd

/-- Outcome of `graph.get(INPUT_NODE_ID) or graph.get(int(INPUT_NODE_ID))`
followed by `if not node`: the found node together with the key it lives
under, or the raised `ValueError` of `int()`, or the falsy-node branch that
raises the HTTP 500 "Input node not found" configuration error. -/
inductive LookupOutcome where
  | found (k : GKey) (nd : NodeDef)
  | valueError
  | notFound

/-- Second operand of the `or`: only evaluated when the string lookup was
falsy, so `int(INPUT_NODE_ID)` only runs here. -/
def intFallback (g : Graph) (id : String) : LookupOutcome :=
  match pyInt id with
  | none => LookupOutcome.valueError
  | some n =>
    match intLookup g n with
    | none => LookupOutcome.notFound
    | some nd =>
      if nd.isEmpty then LookupOutcome.notFound
      else LookupOutcome.found (GKey.int n) nd

/-- The node lookup of `mask` (lines 148-150): `or` is lazy, so the
integer conversion runs only when the string lookup yields a falsy value. -/
def nodeLookup (g : Graph) (id : String) : LookupOutcome :=
  match strLookup g id with
  | none => intFallback g id
  | some nd =>
    if nd.isEmpty then intFallback g id
    else LookupOutcome.found (GKey.str id) nd

/-- `node.setdefault("inputs", {})["image"] = comfy_name`: ensure the
`inputs` sub-dictionary (appending an empty one when absent), then assign
its `image` key; `none` models the `TypeError` raised when an existing
`inputs` value is not a dictionary. -/
def setImage (nd : NodeDef) (ref : String) : Option NodeDef :=
  match getField nd "inputs" with
  | some (Json.obj ins) =>
    some (setField nd "inputs" (Json.obj (setField ins "image" (Json.str ref))))
  | some _ => none
  | none => some (nd ++ [("inputs", Json.obj [("image", Json.str ref)])])

/-- Result of the graph-binding step. -/
inductive BindOutcome where
  | ok (g : Graph)
  | configError
  | valueError
  | typeError

/-- The binding step of `mask`: look up the input node and rewrite its
`inputs.image` field in place. -/
def bindGraph (g : Graph) (id ref : String) : BindOutcome :=
  match nodeLookup g id with
  | LookupOutcome.valueError => BindOutcome.valueError
  | LookupOutcome.notFound => BindOutcome.configError
  | LookupOutcome.found k nd =>
    match setImage nd ref with
    | none => BindOutcome.typeError
    | some nd2 => BindOutcome.ok (setNode g k nd2)

/-- Whether an existing `inputs` value is a dictionary (vacuously true when
the node has no `inputs` key): the condition under which the in-place
assignment cannot raise a `TypeError`. -/
def inputsOk (nd : NodeDef) : Bool :=
  match getField nd "inputs" with
  | some (Json.obj _) => true
  | some _ => false
  | none => true

/-! ### Artifact fetching (`_fetch_first_image`) -/

/-- Result of `_fetch_first_image` up to the `/view` request: the query
parameters of the download, the raised HTTP 500 "No output images found",
or an unhandled `KeyError` (missing job entry, `outputs` key, or
`filename` field). -/
inductive FetchOutcome where
  | params (filename subfolder typ : String)
  | notFound
  | keyError
deriving DecidableEq

/-- `_fetch_first_image`: re-apply the poller's node selection to the
status document, take the first artifact descriptor of the winning node,
and build the `/view` query parameters with defaults
`subfolder=""`, `type="output"`. -/
def fetchFirstImage (hist : Hist) (pid outID : String) : FetchOutcome :=
  match histLookup hist pid with
  | none => FetchOutcome.keyError
  | some entry =>
    match entry.outputs with
    | none => FetchOutcome.keyError
    | some outs =>
      match pollSelect outID outs with
      | none => FetchOutcome.notFound
      | some node =>
        if dictIsEmpty node then FetchOutcome.notFound
        else
          match node.images with
          | some (d :: _) =>
            (match d.filename with
             | none => FetchOutcome.keyError
             | some fn =>
               FetchOutcome.params fn (d.subfolder.getD "") (d.typ.getD "output"))
          | _ => FetchOutcome.notFound

/-! ### The orchestrator (`mask`, lines 117-163) -/

/-- One of the four remote HTTP requests the handler can issue. -/
inductive NetCall where
  | upload
  | prompt
  | history
  | view
deriving DecidableEq

/-- Response of the `prompt` endpoint: a transport error or non-success
status (the exception path of `_queue_prompt`), or a success body whose
`prompt_id` field may be absent. -/
inductive PromptResp where
  | failure
  | success (pid : Option String)
deriving DecidableEq

/-- Terminal result of one `/mask` request, one constructor per exit path
of the handler. `fuelExhausted` is the poll model's artifact outcome and is
never reached with a positive interval. -/
inductive MaskResult where
  | success (body : String) (filename : String)
  | unauthorized
  | configUrlError
  | uploadError
  | workflowReadError
  | inputNodeError
  | pyValueError
  | pyTypeError
  | promptError
  | noPromptId
  | pollTimeout
  | fuelExhausted
  | noImagesError
  | fetchKeyError
  | viewError
deriving DecidableEq

/-- Static configuration of the handler (env-derived constants). -/
structure Config where
  inputNodeID : String
  outputNodeID : String
  maxRetries : ℕ
  pollInterval : ℚ
  pollTimeout : ℚ

/-- Per-request inputs and remote-side behaviour of one `/mask` request:
the three endpoint-URL candidates, the uploaded file, the wall clock at
stamping time, and oracles for every remote response. -/
structure MaskDeps where
  apiKeyOk : Bool
  formUrl : Option String
  headerUrl : Option String
  queryUrl : Option String
  fileName : Option String
  fileBytes : String
  ts : ℕ
  uploadAttempts : ℕ → AttemptResult
  workflow : Option Graph
  promptResp : PromptResp
  pollResponses : ℕ → PollResponse
  viewResp : Option String

/-- `file.filename or "image.png"`. -/
def pyOrName (o : Option String) : String :=
  match o with
  | some s => if s == "" then "image.png" else s
  | none => "image.png"

/-- The `/mask` handler: key check, endpoint selection, upload with retry,
workflow load, node binding, submission, polling, artifact fetch, and the
streaming response whose `Content-Disposition` filename is the caller's
original name. Returns the terminal result and the ordered list of remote
requests issued. -/
def maskRun (cfg : Config) (d : MaskDeps) : MaskResult × List NetCall :=
  if !d.apiKeyOk then (MaskResult.unauthorized, [])
  else
    match pickComfyUrl d.formUrl d.headerUrl d.queryUrl with
    | none => (MaskResult.configUrlError, [])
    | some _base =>
      let orig := pyOrName d.fileName
      let stamped := stampedName d.ts orig
      match uploadToComfy d.uploadAttempts stamped cfg.maxRetries with
      | (Except.error _, n, _) =>
        (MaskResult.uploadError, List.replicate n NetCall.upload)
      | (Except.ok comfyName, n, _) =>
        let calls0 := List.replicate n NetCall.upload
        match d.workflow with
        | none => (MaskResult.workflowReadError, calls0)
        | some g =>
          match nodeLookup g cfg.inputNodeID with
          | LookupOutcome.valueError => (MaskResult.pyValueError, calls0)
          | LookupOutcome.notFound => (MaskResult.inputNodeError, calls0)
          | LookupOutcome.found k nd =>
            match setImage nd comfyName with
            | none => (MaskResult.pyTypeError, calls0)
            | some nd2 =>
              let _bound := setNode g k nd2
              let calls1 := calls0 ++ [NetCall.prompt]
              match d.promptResp with
              | PromptResp.failure => (MaskResult.promptError, calls1)
              | PromptResp.success pidOpt =>
                match pidOpt with
                | none => (MaskResult.noPromptId, calls1)
                | some pid =>
                  if pid == "" then (MaskResult.noPromptId, calls1)
                  else
                    match pollHistoryRun cfg.outputNodeID pid d.pollResponses
                        cfg.pollInterval cfg.pollTimeout with
                    | (PollOutcome.fuelOut, m) =>
                      (MaskResult.fuelExhausted,
                        calls1 ++ List.replicate m NetCall.history)
                    | (PollOutcome.timedOut, m) =>
                      (MaskResult.pollTimeout,
                        calls1 ++ List.replicate m NetCall.history)
                    | (PollOutcome.ready hist, m) =>
                      let calls2 := calls1 ++ List.replicate m NetCall.history
                      match fetchFirstImage hist pid cfg.outputNodeID with
                      | FetchOutcome.keyError =>
                        (MaskResult.fetchKeyError, calls2)
                      | FetchOutcome.notFound =>
                        (MaskResult.noImagesError, calls2)
                      | FetchOutcome.params _fn _sf _tp =>
                        let calls3 := calls2 ++ [NetCall.view]
                        match d.viewResp with
                        | none => (MaskResult.viewError, calls3)
                        | some body => (MaskResult.success body orig, calls3)

/-- Whether the first character of a character list is `'/'` (used to state
that stripped bases have no trailing separator, via `reverse`). -/
def headIsSlash : List Char → Bool
  | [] => false
  | c :: _ => c == '/'

/-! ### Lemmas about trailing-slash stripping -/

lemma dropWhile_self_idem {α : Type} (p : α → Bool) (l : List α) :
    List.dropWhile p (List.dropWhile p l) = List.dropWhile p l := by
  induction l with
  | nil => rfl
  | cons a t ih =>
    by_cases h : p a
    · simp [List.dropWhile_cons, h, ih]
    · simp [List.dropWhile_cons, h]

lemma headIsSlash_dropWhile (l : List Char) :
    headIsSlash (List.dropWhile (fun c => c == '/') l) = false := by
  induction l with
  | nil => rfl
  | cons c t ih =>
    by_cases h : (c == '/') = true
    · simp [List.dropWhile_cons, h, ih]
    · simp [List.dropWhile_cons, h, headIsSlash]

lemma lastIsSlash_eq_headIsSlash (s : String) :
    lastIsSlash s = headIsSlash s.data.reverse := by
  unfold lastIsSlash headIsSlash
  cases s.data.reverse <;> rfl

lemma data_rstripSlash (s : String) :
    (rstripSlash s).data = (s.data.reverse.dropWhile (fun c => c == '/')).reverse :=
  rfl

lemma rstripSlash_append_slash (s : String) :
    rstripSlash (s ++ "/") = rstripSlash s := by
  unfold rstripSlash
  have hdata : (s ++ "/").data = s.data ++ ['/'] := rfl
  rw [hdata, List.reverse_append]
  rfl

lemma rstripSlash_idem (s : String) :
    rstripSlash (rstripSlash s) = rstripSlash s := by
  have h : (rstripSlash s).data.reverse =
      List.dropWhile (fun c => c == '/') s.data.reverse := by
    rw [data_rstripSlash, List.reverse_reverse]
  calc rstripSlash (rstripSlash s)
      = String.mk (((rstripSlash s).data.reverse.dropWhile
          (fun c => c == '/')).reverse) := rfl
    _ = String.mk ((s.data.reverse.dropWhile (fun c => c == '/')).reverse) := by
          rw [h, dropWhile_self_idem]
    _ = rstripSlash s := rfl

lemma rstripSlash_normalizeUrl (s : String) :
    rstripSlash (normalizeUrl s) = rstripSlash s := by
  unfold normalizeUrl
  rw [rstripSlash_append_slash, rstripSlash_idem]

lemma lastIsSlash_rstripSlash (s : String) :
    lastIsSlash (rstripSlash s) = false := by
  rw [lastIsSlash_eq_headIsSlash, data_rstripSlash, List.reverse_reverse,
    headIsSlash_dropWhile]

/-- C6: for every supplied base URL, whether or not it already ends with
one or more trailing slashes, the URL used for each remote route
(`upload/image`, `prompt`, `history/{jobID}`, `view`) is the base with all
trailing slashes removed, followed by exactly one path separator, followed
by the route suffix (which starts with a non-separator character). -/
theorem route_single_separator (url pid : String) :
    lastIsSlash (rstripSlash url) = false ∧
    uploadRoute (normalizeUrl url) = rstripSlash url ++ "/" ++ "upload/image" ∧
    promptRoute (normalizeUrl url) = rstripSlash url ++ "/" ++ "prompt" ∧
    historyRoute (normalizeUrl url) pid =
      rstripSlash url ++ "/" ++ ("history/" ++ pid) ∧
    viewRoute (normalizeUrl url) = rstripSlash url ++ "/" ++ "view" ∧
    headIsSlash ("upload/image").data = false ∧
    headIsSlash ("prompt").data = false ∧
    headIsSlash ("history/" ++ pid).data = false ∧
    headIsSlash ("view").data = false := by
  refine ⟨lastIsSlash_rstripSlash url, ?_, ?_, ?_, ?_, rfl, rfl, rfl, rfl⟩
  · unfold uploadRoute
    rw [rstripSlash_normalizeUrl, String.append_assoc]
    exact congrArg (fun t => rstripSlash url ++ t) (by rfl)
  · unfold promptRoute
    rw [rstripSlash_normalizeUrl, String.append_assoc]
    exact congrArg (fun t => rstripSlash url ++ t) (by rfl)
  · unfold historyRoute
    rw [rstripSlash_normalizeUrl, String.append_assoc, String.append_assoc]
    refine congrArg (fun t => rstripSlash url ++ t) ?_
    rw [← String.append_assoc]
    exact congrArg (fun t => t ++ pid) (by rfl)
  · unfold viewRoute
    rw [rstripSlash_normalizeUrl, String.append_assoc]
    exact congrArg (fun t => rstripSlash url ++ t) (by rfl)

/-! ### Lemmas about the poll loop -/

lemma pollCond_iff {interval timeout : ℚ} (h : 0 < interval) (k : ℕ) :
    ((k : ℚ) * interval < timeout) ↔ k < pollIterBound interval timeout := by
  unfold pollIterBound
  have h1 : ((k : ℚ) * interval < timeout) ↔ (k : ℚ) < timeout / interval :=
    (lt_div_iff₀ h).symm
  have h2 : ((k : ℚ) < timeout / interval) ↔
      ((k : ℤ) < Int.ceil (timeout / interval)) := by
    rw [Int.lt_ceil]
    push_cast
    exact Iff.rfl
  have h3 : ((k : ℤ) < Int.ceil (timeout / interval)) ↔
      k < (Int.ceil (timeout / interval)).toNat := Int.lt_toNat.symm
  exact h1.trans (h2.trans h3)

lemma pollLoopFuel_ne_fuelOut (outID pid : String) (responses : ℕ → PollResponse)
    {interval timeout : ℚ} (h : 0 < interval) :
    ∀ fuel k, pollIterBound interval timeout ≤ k + fuel →
      (pollLoopFuel outID pid responses interval timeout fuel k).1 ≠
        PollOutcome.fuelOut := by
  intro fuel
  induction fuel with
  | zero =>
    intro k hk
    have hc : ¬ ((k : ℚ) * interval < timeout) := by
      rw [pollCond_iff h]
      omega
    simp [pollLoopFuel, hc]
  | succ n ih =>
    intro k hk
    by_cases hc : ((k : ℚ) * interval < timeout)
    · simp only [pollLoopFuel, if_pos hc]
      cases hchk : pollCheck outID pid (responses k) with
      | some hist => simp
      | none =>
        simpa using ih (k + 1) (by omega)
    · simp [pollLoopFuel, hc]

lemma pollLoopFuel_allNone (outID pid : String) (responses : ℕ → PollResponse)
    {interval timeout : ℚ} (h : 0 < interval)
    (hall : ∀ k, pollCheck outID pid (responses k) = none) :
    ∀ fuel k, pollIterBound interval timeout ≤ k + fuel →
      pollLoopFuel outID pid responses interval timeout fuel k =
        (PollOutcome.timedOut, pollIterBound interval timeout - k) := by
  intro fuel
  induction fuel with
  | zero =>
    intro k hk
    have hc : ¬ ((k : ℚ) * interval < timeout) := by
      rw [pollCond_iff h]
      omega
    have hz : pollIterBound interval timeout - k = 0 := by omega
    simp [pollLoopFuel, hc, hz]
  | succ n ih =>
    intro k hk
    by_cases hc : ((k : ℚ) * interval < timeout)
    · have hklt : k < pollIterBound interval timeout := (pollCond_iff h k).mp hc
      simp only [pollLoopFuel, if_pos hc, hall k]
      rw [ih (k + 1) (by omega)]
      have : pollIterBound interval timeout - (k + 1) + 1 =
          pollIterBound interval timeout - k := by omega
      simp [this]
    · have hge : ¬ k < pollIterBound interval timeout := by
        rw [← pollCond_iff h k]
        exact hc
      have hz : pollIterBound interval timeout - k = 0 := by omega
      simp [pollLoopFuel, hc, hz]

lemma pollHistoryRun_allNone (outID pid : String) (responses : ℕ → PollResponse)
    {interval timeout : ℚ} (h : 0 < interval)
    (hall : ∀ k, pollCheck outID pid (responses k) = none) :
    pollHistoryRun outID pid responses interval timeout =
      (PollOutcome.timedOut, pollIterBound interval timeout) := by
  unfold pollHistoryRun
  rw [pollLoopFuel_allNone outID pid responses h hall _ 0 (by omega)]
  simp

lemma pollHistoryRun_ready_first (outID pid : String)
    (responses : ℕ → PollResponse) {interval timeout : ℚ} (hist : Hist)
    (h1 : 0 < interval) (h2 : 0 < timeout)
    (hchk : pollCheck outID pid (responses 0) = some hist) :
    pollHistoryRun outID pid responses interval timeout =
      (PollOutcome.ready hist, 1) := by
  have hc : ((0 : ℕ) : ℚ) * interval < timeout := by
    push_cast
    simpa using h2
  have hb : 0 < pollIterBound interval timeout := (pollCond_iff h1 0).mp hc
  obtain ⟨m, hm⟩ := Nat.exists_eq_succ_of_ne_zero (Nat.pos_iff_ne_zero.mp hb)
  unfold pollHistoryRun
  rw [hm]
  simp only [pollLoopFuel, if_pos hc, hchk]

lemma firstWithImages_imagesTruthy :
    ∀ (outs : List (String × NodeOutput)) (v : NodeOutput),
      firstWithImages outs = some v → imagesTruthy v = true := by
  intro outs
  induction outs with
  | nil => intro v hv; simp [firstWithImages] at hv
  | cons p t ih =>
    intro v hv
    obtain ⟨k, w⟩ := p
    by_cases hw : imagesTruthy w = true
    · rw [firstWithImages, if_pos hw] at hv
      cases hv
      exact hw
    · rw [firstWithImages, if_neg hw] at hv
      exact ih v hv

lemma imagesTruthy_not_empty (v : NodeOutput) (h : imagesTruthy v = true) :
    dictIsEmpty v = false := by
  unfold imagesTruthy at h
  unfold dictIsEmpty
  cases hv : v.images with
  | none => rw [hv] at h; simp at h
  | some l =>
    cases l with
    | nil => rw [hv] at h; simp at h
    | cons d t => rfl

lemma pollReady_of_fallback (outID : String) (outs : List (String × NodeOutput))
    (v : NodeOutput) (hfalsy : nodeFalsy (lookupNode outs outID) = true)
    (hfw : firstWithImages outs = some v) :
    pollReady outID outs = true := by
  have himg : imagesTruthy v = true := firstWithImages_imagesTruthy outs v hfw
  have hne : dictIsEmpty v = false := imagesTruthy_not_empty v himg
  unfold pollReady pollSelect
  simp only [hfalsy, if_true, hfw]
  rw [hne, himg]
  rfl

/-- C8: the poll loop always terminates. The deadline is fixed once at
entry (the loop condition compares `k * interval` against the constant
`timeout`), so with a positive interval the loop executes at most
`pollIterBound` iterations and the canonical run never exhausts its
budget; when no iteration finds a ready node it runs exactly
`pollIterBound` iterations — sleeping one interval per iteration,
including on non-200 responses, which the third conjunct shows are
treated as not-ready rather than fatal — and returns `timedOut`, which
carries no status document (no partial result). -/
theorem poll_loop_terminates (outID pid : String)
    (responses : ℕ → PollResponse) (interval timeout : ℚ)
    (h : 0 < interval) :
    (pollHistoryRun outID pid responses interval timeout).1 ≠
      PollOutcome.fuelOut ∧
    ((∀ k, pollCheck outID pid (responses k) = none) →
      pollHistoryRun outID pid responses interval timeout =
        (PollOutcome.timedOut, pollIterBound interval timeout)) ∧
    (∀ s, pollCheck outID pid (PollResponse.failure s) = none) := by
  refine ⟨?_, ?_, fun s => rfl⟩
  · exact pollLoopFuel_ne_fuelOut outID pid responses h _ 0 (by omega)
  · intro hall
    exact pollHistoryRun_allNone outID pid responses h hall

theorem poll_loop_terminates_witness :
    (0 : ℚ) < 5 ∧
    pollHistoryRun "455" "p9" (fun _ => PollResponse.failure 500) 5 120 =
      (PollOutcome.timedOut, pollIterBound 5 120) := by
  constructor
  · norm_num
  · exact (poll_loop_terminates "455" "p9" (fun _ => PollResponse.failure 500)
      5 120 (by norm_num)).2.1 (fun _ => rfl)

/-- C1 (amended): the claim holds when the configured output node's entry
is absent from the outputs mapping or is an empty mapping — the fallback
then selects the first entry with a non-empty artifact sequence and the
poller returns `Ready` with the full status document on the first poll.
When the configured entry is present as a non-empty mapping whose `images`
sequence is empty, the code does not fall back and times out (see the
counterexample). -/
theorem poller_fallback_ready (outID pid : String)
    (responses : ℕ → PollResponse) (interval timeout : ℚ) (hist : Hist)
    (entry : HistEntry) (outs : List (String × NodeOutput)) (v : NodeOutput)
    (h1 : 0 < interval) (h2 : 0 < timeout)
    (hresp : responses 0 = PollResponse.success hist)
    (hlk : histLookup hist pid = some entry)
    (houts : entry.outputs = some outs)
    (hfalsy : nodeFalsy (lookupNode outs outID) = true)
    (hfw : firstWithImages outs = some v) :
    pollHistoryRun outID pid responses interval timeout =
      (PollOutcome.ready hist, 1) := by
  apply pollHistoryRun_ready_first outID pid responses hist h1 h2
  rw [hresp]
  simp only [pollCheck, hlk, houts, Option.getD_some,
    pollReady_of_fallback outID outs v hfalsy hfw, if_true]

theorem poller_fallback_ready_witness :
    pollHistoryRun "455" "p1"
      (fun _ => PollResponse.success
        [("p1", ⟨some [("7", ⟨some [⟨some "m.png", none, none⟩], 0⟩)]⟩)])
      5 120 =
    (PollOutcome.ready
      [("p1", ⟨some [("7", ⟨some [⟨some "m.png", none, none⟩], 0⟩)]⟩)], 1) :=
  poller_fallback_ready "455" "p1" _ 5 120 _ _ _ _
    (by norm_num) (by norm_num) rfl rfl rfl rfl rfl

/-- C1 counterexample: a status document whose outputs mapping contains an
entry for the configured output node `"455"` with an empty `images`
sequence, while node `"7"` has a non-empty one. The entry is a non-empty
dictionary, hence truthy, so `if not node` never triggers the fallback
and the poller times out — the claim says it must return `Ready`. -/
theorem poller_empty_images_times_out :
    (pollHistoryRun "455" "p1"
      (fun _ => PollResponse.success
        [("p1", ⟨some [("455", ⟨some [], 0⟩),
                        ("7", ⟨some [⟨some "m.png", none, none⟩], 0⟩)]⟩)])
      5 120).1 = PollOutcome.timedOut := by
  with_unfolding_all decide

/-! ### Lemmas about the upload retry loop -/

lemma uploadGo_all_err (attempts : ℕ → AttemptResult) (errf : ℕ → String)
    (stamped : String) :
    ∀ r k lastErr, (∀ j, j < r → attempts (k + j) = AttemptResult.err (errf (k + j))) →
      uploadGo attempts stamped k r lastErr =
        (Except.error (if r = 0 then lastErr else some (errf (k + r - 1))), r,
          List.replicate r 2) := by
  intro r
  induction r with
  | zero => intro k lastErr _; rfl
  | succ n ih =>
    intro k lastErr hf
    have h0 : attempts k = AttemptResult.err (errf k) := by
      have := hf 0 (by omega)
      simpa using this
    have hrec := ih (k + 1) (some (errf k)) (fun j hj => by
      have := hf (j + 1) (by omega)
      have harg : k + (j + 1) = k + 1 + j := by omega
      rw [harg] at this
      exact this)
    simp only [uploadGo, h0, hrec]
    cases n with
    | zero => simp
    | succ m =>
      have h1 : k + 1 + (m + 1) - 1 = k + (m + 1 + 1) - 1 := by omega
      simp [h1, List.replicate_succ]

lemma uploadGo_succeeds (attempts : ℕ → AttemptResult) (errf : ℕ → String)
    (stamped : String) :
    ∀ n r k lastErr, n < r →
      (∀ j, j < n → attempts (k + j) = AttemptResult.err (errf (k + j))) →
      attempts (k + n) = AttemptResult.ok →
      uploadGo attempts stamped k r lastErr =
        (Except.ok stamped, n + 1, List.replicate n 2) := by
  intro n
  induction n with
  | zero =>
    intro r k lastErr hr _ hok
    obtain ⟨m, hm⟩ := Nat.exists_eq_succ_of_ne_zero (by omega : r ≠ 0)
    subst hm
    have h0 : attempts k = AttemptResult.ok := by simpa using hok
    simp [uploadGo, h0]
  | succ n ih =>
    intro r k lastErr hr hf hok
    obtain ⟨m, hm⟩ := Nat.exists_eq_succ_of_ne_zero (by omega : r ≠ 0)
    subst hm
    have h0 : attempts k = AttemptResult.err (errf k) := by
      have := hf 0 (by omega)
      simpa using this
    have hok2 : attempts (k + 1 + n) = AttemptResult.ok := by
      have harg : k + 1 + n = k + (n + 1) := by omega
      rw [harg]
      exact hok
    have hrec := ih m (k + 1) (some (errf k)) (by omega) (fun j hj => by
      have := hf (j + 1) (by omega)
      have harg : k + (j + 1) = k + 1 + j := by omega
      rw [harg] at this
      exact this) hok2
    simp only [uploadGo, h0, hrec]
    simp [List.replicate_succ]

/-- C4: with retry budget `R`, if the first `N` attempts fail and attempt
`N + 1` would succeed, the upload succeeds (returning the stamped name,
after `N + 1` attempts) exactly when `N < R`; when `R ≤ N` (all `R`
attempts fail) it raises an `UploadError` carrying the last underlying
error — the error of attempt `R` — after exactly `R` attempts. Every
backoff sleep recorded is the fixed 2 seconds, with no exponential
growth. -/
theorem upload_retry_budget (attempts : ℕ → AttemptResult)
    (errf : ℕ → String) (stamped : String) (N R : ℕ)
    (herr : ∀ k, k < N → attempts k = AttemptResult.err (errf k))
    (hok : attempts N = AttemptResult.ok) :
    (N < R → uploadToComfy attempts stamped R =
      (Except.ok stamped, N + 1, List.replicate N 2)) ∧
    (R ≤ N → 0 < R → uploadToComfy attempts stamped R =
      (Except.error (some (errf (R - 1))), R, List.replicate R 2)) := by
  constructor
  · intro hNR
    unfold uploadToComfy
    exact uploadGo_succeeds attempts errf stamped N R 0 none hNR
      (fun j hj => by simpa using herr j hj) (by simpa using hok)
  · intro hRN hR
    unfold uploadToComfy
    rw [uploadGo_all_err attempts errf stamped R 0 none
      (fun j hj => by simpa using herr j (by omega))]
    have : ¬ R = 0 := by omega
    simp [this]

theorem upload_retry_budget_witness :
    uploadToComfy (fun k => if k < 2 then AttemptResult.err "boom" else AttemptResult.ok)
      "1712_cat.png" 3 =
      (Except.ok "1712_cat.png", 3, List.replicate 2 2) ∧
    uploadToComfy (fun k => if k < 4 then AttemptResult.err "boom" else AttemptResult.ok)
      "1712_cat.png" 3 =
      (Except.error (some "boom"), 3, List.replicate 3 2) := by
  constructor
  · exact (upload_retry_budget
      (fun k => if k < 2 then AttemptResult.err "boom" else AttemptResult.ok)
      (fun _ => "boom") "1712_cat.png" 2 3
      (fun k hk => by simp [hk]) (by simp)).1 (by omega)
  · exact (upload_retry_budget
      (fun k => if k < 4 then AttemptResult.err "boom" else AttemptResult.ok)
      (fun _ => "boom") "1712_cat.png" 4 3
      (fun k hk => by simp [hk]) (by simp)).2 (by omega) (by omega)

/-! ### Lemmas about dictionary updates in the graph -/

lemma getField_setField_self :
    ∀ (nd : NodeDef) (k : String) (v : Json),
      getField (setField nd k v) k = some v := by
  intro nd
  induction nd with
  | nil => intro k v; simp [setField, getField]
  | cons p rest ih =>
    intro k v
    obtain ⟨a, b⟩ := p
    by_cases ha : (a == k) = true
    · rw [setField, if_pos ha, getField, if_pos ha]
    · rw [setField, if_neg ha, getField, if_neg ha]
      exact ih k v

lemma getField_setField_ne :
    ∀ (nd : NodeDef) (k : String) (v : Json) (f : String), f ≠ k →
      getField (setField nd k v) f = getField nd f := by
  intro nd
  induction nd with
  | nil =>
    intro k v f hf
    have : (k == f) = false := by
      rw [beq_eq_false_iff_ne]
      exact fun h => hf h.symm
    simp [setField, getField, this]
  | cons p rest ih =>
    intro k v f hf
    obtain ⟨a, b⟩ := p
    by_cases ha : (a == k) = true
    · have haf : (a == f) = false := by
        rw [beq_eq_false_iff_ne]
        intro h
        exact hf ((eq_of_beq ha).symm.trans h).symm
      rw [setField, if_pos ha, getField, if_neg (by simp [haf]), getField,
        if_neg (by simp [haf])]
    · rw [setField, if_neg ha]
      by_cases haf : (a == f) = true
      · rw [getField, if_pos haf, getField, if_pos haf]
      · rw [getField, if_neg haf, getField, if_neg haf]
        exact ih k v f hf

lemma getField_append_self (nd : NodeDef) (k : String) (v : Json)
    (h : getField nd k = none) :
    getField (nd ++ [(k, v)]) k = some v := by
  induction nd with
  | nil => simp [getField]
  | cons p rest ih =>
    obtain ⟨a, b⟩ := p
    by_cases ha : (a == k) = true
    · rw [getField, if_pos ha] at h
      cases h
    · rw [getField, if_neg ha] at h
      rw [List.cons_append, getField, if_neg ha]
      exact ih h

lemma getField_append_ne (nd : NodeDef) (k : String) (v : Json) (f : String)
    (hf : f ≠ k) :
    getField (nd ++ [(k, v)]) f = getField nd f := by
  induction nd with
  | nil =>
    have : (k == f) = false := by
      rw [beq_eq_false_iff_ne]
      exact fun h => hf h.symm
    simp [getField, this]
  | cons p rest ih =>
    obtain ⟨a, b⟩ := p
    by_cases ha : (a == f) = true
    · rw [List.cons_append, getField, if_pos ha, getField, if_pos ha]
    · rw [List.cons_append, getField, if_neg ha, getField, if_neg ha]
      exact ih

lemma lookupKey_setNode_self :
    ∀ (g : Graph) (k : GKey) (nd : NodeDef),
      lookupKey (setNode g k nd) k = some nd := by
  intro g
  induction g with
  | nil => intro k nd; simp [setNode, lookupKey]
  | cons p rest ih =>
    intro k nd
    obtain ⟨a, b⟩ := p
    by_cases ha : a = k
    · rw [setNode, if_pos ha, lookupKey, if_pos ha]
    · rw [setNode, if_neg ha, lookupKey, if_neg ha]
      exact ih k nd

lemma lookupKey_setNode_ne :
    ∀ (g : Graph) (k : GKey) (nd : NodeDef) (k2 : GKey), k2 ≠ k →
      lookupKey (setNode g k nd) k2 = lookupKey g k2 := by
  intro g
  induction g with
  | nil =>
    intro k nd k2 hk
    have : ¬ (k = k2) := fun h => hk h.symm
    simp [setNode, lookupKey, this]
  | cons p rest ih =>
    intro k nd k2 hk
    obtain ⟨a, b⟩ := p
    by_cases ha : a = k
    · have haf : ¬ (a = k2) := fun h => hk (h.symm.trans ha)
      rw [setNode, if_pos ha, lookupKey, if_neg (ha ▸ haf), lookupKey,
        if_neg haf]
    · rw [setNode, if_neg ha]
      by_cases haf : a = k2
      · rw [lookupKey, if_pos haf, lookupKey, if_pos haf]
      · rw [lookupKey, if_neg haf, lookupKey, if_neg haf]
        exact ih k nd k2 hk

lemma setImage_spec (nd : NodeDef) (ref : String) (hok : inputsOk nd = true) :
    ∃ nd2, setImage nd ref = some nd2 ∧
      (∃ ins, getField nd2 "inputs" = some (Json.obj ins) ∧
        getField ins "image" = some (Json.str ref)) ∧
      (∀ f, f ≠ "inputs" → getField nd2 f = getField nd f) := by
  unfold inputsOk at hok
  unfold setImage
  cases hin : getField nd "inputs" with
  | none =>
    refine ⟨nd ++ [("inputs", Json.obj [("image", Json.str ref)])], rfl,
      ⟨[("image", Json.str ref)], ?_, rfl⟩, ?_⟩
    · exact getField_append_self nd "inputs" _ hin
    · intro f hf
      exact getField_append_ne nd "inputs" _ f hf
  | some j =>
    rw [hin] at hok
    cases j with
    | obj ins =>
      refine ⟨setField nd "inputs"
          (Json.obj (setField ins "image" (Json.str ref))), rfl,
        ⟨setField ins "image" (Json.str ref),
          getField_setField_self nd "inputs" _,
          getField_setField_self ins "image" _⟩, ?_⟩
      intro f hf
      exact getField_setField_ne nd "inputs" _ f hf
    | null => cases hok
    | bool b => cases hok
    | num n => cases hok
    | str s => cases hok
    | arr elems => cases hok

/-- C3 (amended): for every template in which the input node id is present
as a string key with a non-empty node mapping whose `inputs` value (when
present) is itself a mapping, binding sets the node's `inputs.image` field
to the asset reference — creating an empty `inputs` sub-mapping if absent —
leaves the node's other fields unchanged, and leaves every other node of
the graph identical to the template. When the node is present but its
mapping is empty, the code instead raises the "input node not found"
configuration error (see the counterexample). -/
theorem bind_sets_image (g : Graph) (id ref : String) (nd : NodeDef)
    (hstr : strLookup g id = some nd) (hne : nd.isEmpty = false)
    (hok : inputsOk nd = true) :
    ∃ nd2, bindGraph g id ref = BindOutcome.ok (setNode g (GKey.str id) nd2) ∧
      (∃ ins, getField nd2 "inputs" = some (Json.obj ins) ∧
        getField ins "image" = some (Json.str ref)) ∧
      (∀ f, f ≠ "inputs" → getField nd2 f = getField nd f) ∧
      lookupKey (setNode g (GKey.str id) nd2) (GKey.str id) = some nd2 ∧
      (∀ k, k ≠ GKey.str id →
        lookupKey (setNode g (GKey.str id) nd2) k = lookupKey g k) := by
  obtain ⟨nd2, hset, hfield, hpres⟩ := setImage_spec nd ref hok
  refine ⟨nd2, ?_, hfield, hpres, lookupKey_setNode_self g _ nd2,
    fun k hk => lookupKey_setNode_ne g _ nd2 k hk⟩
  simp only [bindGraph, nodeLookup, hstr, hne, Bool.false_eq_true, if_false,
    hset]

theorem bind_sets_image_witness :
    ∃ nd2,
      bindGraph [(GKey.str "54", [("class_type", Json.str "LoadImage")])]
          "54" "r.png" =
        BindOutcome.ok
          (setNode [(GKey.str "54", [("class_type", Json.str "LoadImage")])]
            (GKey.str "54") nd2) ∧
      (∃ ins, getField nd2 "inputs" = some (Json.obj ins) ∧
        getField ins "image" = some (Json.str "r.png")) ∧
      (∀ f, f ≠ "inputs" →
        getField nd2 f = getField [("class_type", Json.str "LoadImage")] f) ∧
      lookupKey
          (setNode [(GKey.str "54", [("class_type", Json.str "LoadImage")])]
            (GKey.str "54") nd2) (GKey.str "54") = some nd2 ∧
      (∀ k, k ≠ GKey.str "54" →
        lookupKey
            (setNode [(GKey.str "54", [("class_type", Json.str "LoadImage")])]
              (GKey.str "54") nd2) k =
          lookupKey [(GKey.str "54", [("class_type", Json.str "LoadImage")])] k) :=
  bind_sets_image [(GKey.str "54", [("class_type", Json.str "LoadImage")])]
    "54" "r.png" [("class_type", Json.str "LoadImage")] rfl rfl rfl

/-- C3 counterexample: a template whose input node `"54"` is present but
maps to an empty dictionary. The claim says binding must set
`inputs.image`; the code's `graph.get("54") or graph.get(54)` treats the
empty dictionary as falsy and raises the configuration error instead. -/
theorem bind_empty_node_config_error :
    bindGraph [(GKey.str "54", [])] "54" "a.png" = BindOutcome.configError := by
  rfl

/-- C10: when the configured input node id neither parses as an integer
nor is present as a string key, the lookup raises the unhandled
`ValueError` of `int()` rather than the "input node not found"
configuration error; and the configuration-error path is reached only if
the id parses as an integer or is present as a string key. -/
theorem node_lookup_value_error (g : Graph) (id : String) :
    ((pyInt id = none ∧ strLookup g id = none) →
      nodeLookup g id = LookupOutcome.valueError) ∧
    (nodeLookup g id = LookupOutcome.notFound →
      (pyInt id).isSome = true ∨ (strLookup g id).isSome = true) := by
  constructor
  · rintro ⟨hpy, hstr⟩
    simp only [nodeLookup, hstr, intFallback, hpy]
  · intro hnf
    cases hstr : strLookup g id with
    | some nd =>
      right
      rfl
    | none =>
      left
      simp only [nodeLookup, hstr, intFallback] at hnf
      cases hpy : pyInt id with
      | none =>
        rw [hpy] at hnf
        cases hnf
      | some n =>
        rfl

theorem node_lookup_value_error_witness :
    nodeLookup ([] : Graph) "abc" = LookupOutcome.valueError :=
  (node_lookup_value_error [] "abc").1 ⟨rfl, rfl⟩

/-! ### Lemmas about endpoint selection and the orchestrator -/

lemma pickLoop_not_truthy (u : Option String) (rest : List (Option String))
    (hu : urlTruthy u = false) :
    pickLoop (u :: rest) = pickLoop rest := by
  cases u with
  | none => rfl
  | some s => simp [pickLoop, hu]

lemma pickLoop_truthy (s : String) (rest : List (Option String))
    (hu : urlTruthy (some s) = true) :
    pickLoop (some s :: rest) = some (normalizeUrl s) := by
  simp [pickLoop, hu]

/-- C9: the effective endpoint is the first candidate, in the priority
order form override, then transport header, then query parameter, that is
supplied, non-empty and not all whitespace; that candidate is used
(normalized); when none qualifies the selection yields no endpoint and the
whole request fails with the configuration error before any network
call. -/
theorem comfy_url_priority (cfg : Config) (d : MaskDeps) :
    (∀ s, d.formUrl = some s → urlTruthy d.formUrl = true →
      pickComfyUrl d.formUrl d.headerUrl d.queryUrl =
        some (normalizeUrl s)) ∧
    (urlTruthy d.formUrl = false → ∀ s, d.headerUrl = some s →
      urlTruthy d.headerUrl = true →
      pickComfyUrl d.formUrl d.headerUrl d.queryUrl =
        some (normalizeUrl s)) ∧
    (urlTruthy d.formUrl = false → urlTruthy d.headerUrl = false →
      ∀ s, d.queryUrl = some s → urlTruthy d.queryUrl = true →
      pickComfyUrl d.formUrl d.headerUrl d.queryUrl =
        some (normalizeUrl s)) ∧
    (urlTruthy d.formUrl = false → urlTruthy d.headerUrl = false →
      urlTruthy d.queryUrl = false →
      pickComfyUrl d.formUrl d.headerUrl d.queryUrl = none ∧
      (d.apiKeyOk = true →
        maskRun cfg d = (MaskResult.configUrlError, []))) := by
  refine ⟨?_, ?_, ?_, ?_⟩
  · intro s hs ht
    rw [hs] at ht
    unfold pickComfyUrl
    rw [hs]
    exact pickLoop_truthy s _ ht
  · intro hf s hs ht
    rw [hs] at ht
    unfold pickComfyUrl
    rw [pickLoop_not_truthy _ _ hf, hs]
    exact pickLoop_truthy s _ ht
  · intro hf hh s hs ht
    rw [hs] at ht
    unfold pickComfyUrl
    rw [pickLoop_not_truthy _ _ hf, pickLoop_not_truthy _ _ hh, hs]
    exact pickLoop_truthy s _ ht
  · intro hf hh hq
    have hpick : pickComfyUrl d.formUrl d.headerUrl d.queryUrl = none := by
      unfold pickComfyUrl
      rw [pickLoop_not_truthy _ _ hf, pickLoop_not_truthy _ _ hh,
        pickLoop_not_truthy _ _ hq]
      rfl
    refine ⟨hpick, fun hk => ?_⟩
    simp [maskRun, hk, hpick]

theorem comfy_url_priority_witness :
    pickComfyUrl (some "http://a//") (some "http://b") none =
      some (normalizeUrl "http://a//") :=
  (comfy_url_priority ⟨"54", "455", 3, 5, 120⟩
    ⟨true, some "http://a//", some "http://b", none, none, "", 0,
      fun _ => AttemptResult.ok, none, PromptResp.failure,
      fun _ => PollResponse.failure 500, none⟩).1
    "http://a//" rfl (by decide)

/-- C2 (amended): when the job-graph template lacks the configured input
node, the request fails with the "input node not found" configuration
error and issues no job submission, polling or artifact-fetch network
calls — but the asset upload has already been performed at that point,
because the handler uploads before reading the template. -/
theorem mask_missing_node_after_upload (cfg : Config) (d : MaskDeps)
    (b : String) (g : Graph) (s : String)
    (hkey : d.apiKeyOk = true)
    (hurl : pickComfyUrl d.formUrl d.headerUrl d.queryUrl = some b)
    (hup : (uploadToComfy d.uploadAttempts
      (stampedName d.ts (pyOrName d.fileName)) cfg.maxRetries).1 =
        Except.ok s)
    (hwf : d.workflow = some g)
    (hlk : nodeLookup g cfg.inputNodeID = LookupOutcome.notFound) :
    maskRun cfg d =
      (MaskResult.inputNodeError,
        List.replicate (uploadToComfy d.uploadAttempts
          (stampedName d.ts (pyOrName d.fileName)) cfg.maxRetries).2.1
          NetCall.upload) ∧
    NetCall.prompt ∉ (maskRun cfg d).2 ∧
    NetCall.history ∉ (maskRun cfg d).2 ∧
    NetCall.view ∉ (maskRun cfg d).2 := by
  rcases hu : uploadToComfy d.uploadAttempts
      (stampedName d.ts (pyOrName d.fileName)) cfg.maxRetries with ⟨res, n, sl⟩
  rw [hu] at hup
  simp only at hup
  subst hup
  have hmain : maskRun cfg d =
      (MaskResult.inputNodeError, List.replicate n NetCall.upload) := by
    simp only [maskRun, hkey, Bool.not_true, Bool.false_eq_true, if_false,
      hurl, hu, hwf, hlk]
  refine ⟨by rw [hmain], ?_, ?_, ?_⟩ <;>
    rw [hmain] <;> simp [List.mem_replicate]

theorem mask_missing_node_after_upload_witness :
    maskRun ⟨"54", "455", 3, 5, 120⟩
      ⟨true, some "http://c", none, none, some "cat.png", "B", 171234,
        fun _ => AttemptResult.ok, some [], PromptResp.failure,
        fun _ => PollResponse.failure 500, none⟩ =
      (MaskResult.inputNodeError,
        List.replicate (uploadToComfy (fun _ => AttemptResult.ok)
          (stampedName 171234 (pyOrName (some "cat.png"))) 3).2.1
          NetCall.upload) ∧
    NetCall.prompt ∉ (maskRun ⟨"54", "455", 3, 5, 120⟩
      ⟨true, some "http://c", none, none, some "cat.png", "B", 171234,
        fun _ => AttemptResult.ok, some [], PromptResp.failure,
        fun _ => PollResponse.failure 500, none⟩).2 ∧
    NetCall.history ∉ (maskRun ⟨"54", "455", 3, 5, 120⟩
      ⟨true, some "http://c", none, none, some "cat.png", "B", 171234,
        fun _ => AttemptResult.ok, some [], PromptResp.failure,
        fun _ => PollResponse.failure 500, none⟩).2 ∧
    NetCall.view ∉ (maskRun ⟨"54", "455", 3, 5, 120⟩
      ⟨true, some "http://c", none, none, some "cat.png", "B", 171234,
        fun _ => AttemptResult.ok, some [], PromptResp.failure,
        fun _ => PollResponse.failure 500, none⟩).2 :=
  mask_missing_node_after_upload ⟨"54", "455", 3, 5, 120⟩
    ⟨true, some "http://c", none, none, some "cat.png", "B", 171234,
      fun _ => AttemptResult.ok, some [], PromptResp.failure,
      fun _ => PollResponse.failure 500, none⟩
    (normalizeUrl "http://c") []
    (stampedName 171234 (pyOrName (some "cat.png")))
    rfl rfl rfl rfl rfl

/-- C2 counterexample: a request whose template is the empty graph — it
lacks the input node `"54"` — fails with the configuration error as the
claim says, but the network trace is not empty: the asset upload was
performed before the template was examined. -/
theorem mask_missing_node_uploads_first :
    maskRun ⟨"54", "455", 3, 5, 120⟩
      ⟨true, some "http://c", none, none, some "cat.png", "B", 171234,
        fun _ => AttemptResult.ok, some [], PromptResp.failure,
        fun _ => PollResponse.failure 500, none⟩ =
      (MaskResult.inputNodeError, [NetCall.upload]) ∧
    [NetCall.upload] ≠ ([] : List NetCall) := by
  constructor
  · rfl
  · simp

/-- C7: when the fetcher's node selection (the same rule as the poller's)
locates a winning node, the download parameters are taken from the first
artifact descriptor only — later descriptors, quantified here and absent
from the result, are ignored — with defaults `subfolder=""` and
`type="output"` for missing fields; when no artifact-bearing node can be
located (the poller's readiness test fails on this document) the fetcher
fails with the "No output images found" error. -/
theorem fetch_first_descriptor (hist : Hist) (pid outID : String)
    (entry : HistEntry) (outs : List (String × NodeOutput))
    (hlk : histLookup hist pid = some entry)
    (houts : entry.outputs = some outs) :
    (∀ node d rest fn, pollSelect outID outs = some node →
      dictIsEmpty node = false → node.images = some (d :: rest) →
      d.filename = some fn →
      fetchFirstImage hist pid outID =
        FetchOutcome.params fn (d.subfolder.getD "") (d.typ.getD "output")) ∧
    (pollReady outID outs = false →
      fetchFirstImage hist pid outID = FetchOutcome.notFound) := by
  constructor
  · intro node d rest fn hsel hde himg hfn
    simp only [fetchFirstImage, hlk, houts, hsel, hde, Bool.false_eq_true,
      if_false, himg, hfn]
  · intro hready
    cases hsel : pollSelect outID outs with
    | none => simp only [fetchFirstImage, hlk, houts, hsel]
    | some node =>
      simp only [pollReady, hsel] at hready
      by_cases hde : dictIsEmpty node = true
      · simp only [fetchFirstImage, hlk, houts, hsel, hde, if_true]
      · have hde2 : dictIsEmpty node = false := by
          cases hx : dictIsEmpty node
          · rfl
          · exact absurd hx hde
        rw [hde2] at hready
        simp only [Bool.not_false, Bool.true_and] at hready
        cases himg : node.images with
        | none =>
          simp only [fetchFirstImage, hlk, houts, hsel, hde2,
            Bool.false_eq_true, if_false, himg]
        | some l =>
          cases l with
          | nil =>
            simp only [fetchFirstImage, hlk, houts, hsel, hde2,
              Bool.false_eq_true, if_false, himg]
          | cons a t =>
            exfalso
            unfold imagesTruthy at hready
            rw [himg] at hready
            cases hready

theorem fetch_first_descriptor_witness :
    fetchFirstImage
      [("p1", ⟨some [("455",
        ⟨some [⟨some "result.png", none, none⟩,
               ⟨some "extra.png", some "sub", some "temp"⟩], 0⟩)]⟩)]
      "p1" "455" =
    FetchOutcome.params "result.png" "" "output" :=
  (fetch_first_descriptor
    [("p1", ⟨some [("455",
      ⟨some [⟨some "result.png", none, none⟩,
             ⟨some "extra.png", some "sub", some "temp"⟩], 0⟩)]⟩)]
    "p1" "455"
    ⟨some [("455", ⟨some [⟨some "result.png", none, none⟩,
                          ⟨some "extra.png", some "sub", some "temp"⟩], 0⟩)]⟩
    [("455", ⟨some [⟨some "result.png", none, none⟩,
                    ⟨some "extra.png", some "sub", some "temp"⟩], 0⟩)]
    rfl rfl).1
    ⟨some [⟨some "result.png", none, none⟩,
           ⟨some "extra.png", some "sub", some "temp"⟩], 0⟩
    ⟨some "result.png", none, none⟩
    [⟨some "extra.png", some "sub", some "temp"⟩]
    "result.png" rfl rfl rfl rfl

lemma maskRun_success_filename (cfg : Config) (d : MaskDeps)
    (body fname : String)
    (h : (maskRun cfg d).1 = MaskResult.success body fname) :
    fname = pyOrName d.fileName := by
  simp only [maskRun] at h
  repeat' split at h
  all_goals simp_all

/-- C5: for every successful request, the filename suggested to the caller
equals the caller's original filename — for every remote behaviour
(stamping clock, upload outcome, artifact filename, all quantified in the
request dependencies) — and the stamped upload name never occurs inside
the response filename. -/
theorem response_filename_original (cfg : Config) (d : MaskDeps)
    (body fname s : String)
    (hs : d.fileName = some s) (hne : s ≠ "")
    (hrun : (maskRun cfg d).1 = MaskResult.success body fname) :
    fname = s ∧
    ¬ (stampedName d.ts s).data <:+: fname.data := by
  have horig : fname = pyOrName d.fileName :=
    maskRun_success_filename cfg d body fname hrun
  have hpy : pyOrName d.fileName = s := by
    have hb : (s == "") = false := by
      rw [beq_eq_false_iff_ne]
      exact hne
    rw [hs]
    simp only [pyOrName, hb, Bool.false_eq_true, if_false]
  refine ⟨horig.trans hpy, ?_⟩
  rw [horig, hpy]
  intro hinf
  have hlen := List.IsInfix.length_le hinf
  have hd : (stampedName d.ts s).data =
      ((toString d.ts).data ++ ("_" : String).data) ++ s.data := by
    unfold stampedName
    rw [String.data_append, String.data_append]
  rw [hd, List.length_append, List.length_append] at hlen
  have h1 : ("_" : String).data.length = 1 := rfl
  omega

theorem response_filename_original_witness :
    ("cat.png" : String) = "cat.png" ∧
    ¬ (stampedName 171234 "cat.png").data <:+: ("cat.png" : String).data :=
  response_filename_original ⟨"54", "455", 3, 5, 120⟩
    ⟨true, some "http://c", none, none, some "cat.png", "B", 171234,
      fun _ => AttemptResult.ok,
      some [(GKey.str "54", [("inputs", Json.obj [])])],
      PromptResp.success (some "abc123"),
      fun _ => PollResponse.success
        [("abc123",
          ⟨some [("455", ⟨some [⟨some "result.png", none, none⟩], 0⟩)]⟩)],
      some "PNGDATA"⟩
    "PNGDATA" "cat.png" "cat.png" rfl (by decide)
    (by with_unfolding_all rfl)
